import Mathlib

/-!
Verification of the Google Drive filesystem adapter
(`src/filesystem/gdrive_filesystem.py`, `src/utils/config.py`).

Strings are modelled as `List Char` (Python `str`), the remote Drive store as
a list of file objects, and the Drive API endpoints as functions over that
list.  Timestamps are modelled as already-parsed natural numbers, and file
content as a list of bytes (`List Nat`).
-/

namespace GDrive

/-! ## Python string helpers

`path.strip('/')` and `s.split('/')`, with Python semantics:
`split` on a separator always returns at least one (possibly empty) piece. -/

def stripSlashes (s : List Char) : List Char :=
  ((s.dropWhile (fun c => c = '/')).reverse.dropWhile (fun c => c = '/')).reverse

def splitSlash : List Char → List (List Char)
  | [] => [[]]
  | c :: cs =>
    if c = '/' then [] :: splitSlash cs
    else
      match splitSlash cs with
      | [] => [[c]]
      | g :: gs => (c :: g) :: gs

/-- Python `value.replace(t, r)` for a single-character search string `t`. -/
def replaceChar (t : Char) (r : List Char) : List Char → List Char
  | [] => []
  | c :: cs => (if c = t then r else [c]) ++ replaceChar t r cs

/-- Source `GoogleDriveFileSystem._escape_query_value`: escape backslashes
first, then single quotes. -/
def escape_query_value (value : List Char) : List Char :=
  let v1 := replaceChar '\\' ['\\', '\\'] value
  replaceChar '\'' ['\\', '\''] v1

/-- Source line 35 / 127 / 176: `path.strip('/').split('/')`. -/
def pathParts (path : List Char) : List (List Char) :=
  splitSlash (stripSlashes path)

/-- Python `parts[-1]` on the (never empty) result of `split`. -/
def lastPart (l : List (List Char)) : List Char :=
  l.getLastD []

/-- Source lines 129 / 178:
`'/' + '/'.join(parts[:-1]) if len(parts) > 1 else '/'`. -/
def parentPathOf (path : List Char) : List Char :=
  let parts := pathParts path
  if 1 < parts.length then '/' :: List.intercalate ['/'] parts.dropLast else ['/']

/-! ## Remote object model -/

/-- Metadata of one Drive object, the fields the adapter requests
(`id, name, mimeType, size, modifiedTime, createdTime`) plus the
parent links and trashed flag the queries filter on, plus content
for the download/upload endpoints. -/
structure FileObj where
  id : List Char
  name : List Char
  mimeType : List Char
  size : Option Nat
  modifiedTime : Option Nat
  createdTime : Option Nat
  parents : List (List Char)
  trashed : Bool
  content : List Nat
deriving DecidableEq, Repr

abbrev Store := List FileObj

def folderMime : List Char := "application/vnd.google-apps.folder".data

/-- Synthetic root node returned for path `/` or `` (source lines 32-33). -/
def rootFile : FileObj :=
  { id := "root".data, name := "/".data, mimeType := folderMime,
    size := none, modifiedTime := none, createdTime := none,
    parents := [], trashed := false, content := [] }

/-! ## The query string and the remote list endpoint

The source embeds each (escaped) segment name in the query string
`name='{part}' and '{parent_id}' in parents and trashed=false` (line 40).
The remote endpoint is modelled faithfully at the query-string level: it
parses the query back (single-quoted strings, backslash escapes) and filters
the store; a segment name could therefore in principle alter the query
structure, which is exactly what the escaping must prevent. -/

def buildQuery (escapedPart parentId : List Char) : List Char :=
  "name='".data ++ escapedPart ++ "' and '".data ++ parentId
    ++ "' in parents and trashed=false".data

/-- Strip an expected literal prefix. -/
def stripPfx : List Char → List Char → Option (List Char)
  | [], s => some s
  | _ :: _, [] => none
  | p :: ps, c :: cs => if p = c then stripPfx ps cs else none

/-- Scan the body of a single-quoted string in the query language:
a backslash escapes the next character, an unescaped quote terminates.
Returns the decoded content and the remainder after the closing quote. -/
def scanQuoted : List Char → Option (List Char × List Char)
  | [] => none
  | c :: rest =>
    if c = '\'' then some ([], rest)
    else if c = '\\' then
      match rest with
      | [] => none
      | d :: rest' =>
        match scanQuoted rest' with
        | none => none
        | some (s, r) => some (d :: s, r)
    else
      match scanQuoted rest with
      | none => none
      | some (s, r) => some (c :: s, r)

/-- Parse a resolution query of the shape built on source line 40,
extracting the (decoded) name and parent id. -/
def parseQuery (q : List Char) : Option (List Char × List Char) :=
  (stripPfx "name='".data q).bind (fun r1 =>
  (scanQuoted r1).bind (fun nm2 =>
  (stripPfx " and '".data nm2.2).bind (fun r3 =>
  (scanQuoted r3).bind (fun pid4 =>
  if pid4.2 = " in parents and trashed=false".data
  then some (nm2.1, pid4.1) else none))))

/-- The remote `files().list` endpoint for a resolution query: parse the
query string and return the matching, non-trashed children in store order. -/
def filesList (store : Store) (q : List Char) : List FileObj :=
  match parseQuery q with
  | none => []
  | some (nm, pid) =>
    store.filter (fun f => f.name = nm && f.parents.contains pid && !f.trashed)

/-! ## Path resolution (`GoogleDriveFileSystem._get_file_by_path`)

The walk is instrumented with the list of query strings it sends to the
remote `files().list` endpoint, so that claims about which remote calls a
resolution issues can be stated.  The `[]`-segment base case is unreachable
from `get_file_by_path` (`splitSlash` never returns an empty list). -/

def resolveGo (store : Store) : List (List Char) → List Char →
    Option FileObj × List (List Char)
  | [], _ => (none, [])
  | part :: rest, parentId =>
    let q := buildQuery (escape_query_value part) parentId
    match filesList store q with
    | [] => (none, [q])
    | f :: _ =>
      match rest with
      | [] => (some f, [q])
      | r :: rs =>
        let (res, qs) := resolveGo store (r :: rs) f.id
        (res, q :: qs)

/-- Source lines 30-53: resolve a path, returning the found object (if any)
together with the queries issued to the remote store. -/
def get_file_by_path (store : Store) (path : List Char) :
    Option FileObj × List (List Char) :=
  if path = ['/'] ∨ path = [] then (some rootFile, [])
  else resolveGo store (pathParts path) "root".data

/-- The resolution result alone. -/
def resolve (store : Store) (path : List Char) : Option FileObj :=
  (get_file_by_path store path).1

/-! ## Remote mutation calls

Each mutating adapter operation is modelled as the pair of its boolean
result and the list of mutation calls it issues to the remote store;
`applyMut` is the remote store's semantics for one such call.  The
`HttpError` branches of the source correspond to the remote rejecting a
call; the claims under verification concern which calls are issued and the
success paths, so the remote is modelled as accepting every call. -/

inductive MutCall where
  | updateContent (fileId : List Char) (content : List Nat)
  | updateName (fileId : List Char) (newName : List Char)
  | create (name : List Char) (parents : List (List Char)) (isFolder : Bool)
      (content : List Nat)
  | delete (fileId : List Char)
deriving DecidableEq, Repr

/-- Id assigned by the remote store to a newly created object (opaque;
modelled deterministically from the store size). -/
def freshId (store : Store) : List Char :=
  "id".data ++ Nat.toDigits 10 (List.length store)

def applyMut (store : Store) : MutCall → Store
  | .updateContent fid c =>
    store.map (fun f => if f.id = fid then { f with content := c } else f)
  | .updateName fid nm =>
    store.map (fun f => if f.id = fid then { f with name := nm } else f)
  | .create nm ps isF c =>
    store ++ [{ id := freshId store, name := nm,
                mimeType := if isF then folderMime else "application/octet-stream".data,
                size := if isF then none else some c.length,
                modifiedTime := none, createdTime := none,
                parents := ps, trashed := false, content := c }]
  | .delete fid => store.filter (fun f => !(f.id = fid))

def applyCalls (store : Store) (calls : List MutCall) : Store :=
  calls.foldl applyMut store

/-! ## The adapter operations -/

/-- Statistics returned by `get_file_stats` (source lines 100-106). -/
structure FileStats where
  size : Nat
  mtime : Nat
  isdir : Bool
  name : List Char
  id : List Char
deriving DecidableEq, Repr

/-- Source lines 84-106: `get_file_stats`.  `now` stands for `time.time()`;
timestamps are modelled as already parsed. -/
def get_file_stats (store : Store) (path : List Char) (now : Nat) :
    Option FileStats :=
  match resolve store path with
  | none => none
  | some fi =>
    let isDir := fi.mimeType = folderMime
    some { size := if isDir then 0 else fi.size.getD 0,
           mtime := match fi.modifiedTime with
             | some t => t
             | none => match fi.createdTime with
               | some t => t
               | none => now,
           isdir := isDir, name := fi.name, id := fi.id }

/-- The remote list endpoint for the parent-only query
`'{id}' in parents and trashed=false` of source line 75, with the
`pageSize=1000` first-page cap of line 79. -/
def filesListChildren (store : Store) (parentId : List Char) : List FileObj :=
  (store.filter (fun f => f.parents.contains parentId && !f.trashed)).take 1000

/-- Source lines 66-82: `list_directory`. -/
def list_directory (store : Store) (path : List Char) : List FileObj :=
  match resolve store path with
  | none => []
  | some fi =>
    if fi.mimeType = folderMime then filesListChildren store fi.id else []

/-- The remote `files().get_media` download endpoint. -/
def downloadContent (store : Store) (fileId : List Char) : Option (List Nat) :=
  (store.find? (fun f => f.id = fileId)).map (fun f => f.content)

/-- Source lines 108-123: `read_file`. -/
def read_file (store : Store) (path : List Char) : Option (List Nat) :=
  match resolve store path with
  | none => none
  | some fi =>
    if fi.mimeType = folderMime then none else downloadContent store fi.id

/-- Source lines 125-160: `write_file`.  Resolves the parent, fails if it is
missing, then resolves the target and updates the existing object's content
or creates a new object under the parent. -/
def write_file (store : Store) (path : List Char) (content : List Nat) :
    Bool × List MutCall :=
  let parts := pathParts path
  let filename := lastPart parts
  let parent_path := parentPathOf path
  match resolve store parent_path with
  | none => (false, [])
  | some parent_info =>
    match resolve store path with
    | some existing_file => (true, [.updateContent existing_file.id content])
    | none => (true, [.create filename [parent_info.id] false content])

/-- Source lines 162-172: `delete_file`. -/
def delete_file (store : Store) (path : List Char) : Bool × List MutCall :=
  match resolve store path with
  | none => (false, [])
  | some fi => (true, [.delete fi.id])

/-- Source lines 174-194: `create_directory`. -/
def create_directory (store : Store) (path : List Char) : Bool × List MutCall :=
  let parts := pathParts path
  let dirname := lastPart parts
  let parent_path := parentPathOf path
  match resolve store parent_path with
  | none => (false, [])
  | some parent_info => (true, [.create dirname [parent_info.id] true []])

/-- Source lines 196-211: `rename_file`.  Only the leaf name of `new_path`
is sent in the metadata update. -/
def rename_file (store : Store) (old_path new_path : List Char) :
    Bool × List MutCall :=
  match resolve store old_path with
  | none => (false, [])
  | some fi =>
    let new_name := lastPart (pathParts new_path)
    (true, [.updateName fi.id new_name])

/-! ## The adapter object and its cache field

`GoogleDriveFileSystem.__init__` (source lines 18-21) stores the service
handle, an empty `_cache` dict and a `_cache_timeout` of 60 seconds.  The
object state is modelled with the remote store standing for the service
handle; method wrappers pair the method's result with the object-and-remote
state after the call (mutation calls applied to the store, the object's own
fields as the method left them). -/

structure GoogleDriveFileSystem where
  service : Store
  cache : List (List Char × FileObj)
  cacheTimeout : Nat
deriving DecidableEq, Repr

def GoogleDriveFileSystem.init (service : Store) : GoogleDriveFileSystem :=
  { service := service, cache := [], cacheTimeout := 60 }

/-- Dict lookup in the object's `_cache`. -/
def cacheLookup (fs : GoogleDriveFileSystem) (path : List Char) :
    Option FileObj :=
  (fs.cache.find? (fun e => e.1 = path)).map (fun e => e.2)

/-- Method-level `_get_file_by_path`: reads only `self.service`. -/
def fsResolve (fs : GoogleDriveFileSystem) (path : List Char) :
    Option FileObj × List (List Char) :=
  get_file_by_path fs.service path

/-- Method-level `get_file_stats`. -/
def fsStats (fs : GoogleDriveFileSystem) (path : List Char) (now : Nat) :
    Option FileStats :=
  get_file_stats fs.service path now

/-- Method-level `list_directory`. -/
def fsList (fs : GoogleDriveFileSystem) (path : List Char) : List FileObj :=
  list_directory fs.service path

/-- Method-level `read_file`. -/
def fsRead (fs : GoogleDriveFileSystem) (path : List Char) : Option (List Nat) :=
  read_file fs.service path

/-- Method-level `write_file`: result plus the state after the call. -/
def writeRun (fs : GoogleDriveFileSystem) (path : List Char)
    (content : List Nat) : Bool × GoogleDriveFileSystem :=
  let r := write_file fs.service path content
  (r.1, { fs with service := applyCalls fs.service r.2 })

/-- Method-level `delete_file`: result plus the state after the call. -/
def deleteRun (fs : GoogleDriveFileSystem) (path : List Char) :
    Bool × GoogleDriveFileSystem :=
  let r := delete_file fs.service path
  (r.1, { fs with service := applyCalls fs.service r.2 })

/-- Method-level `create_directory`: result plus the state after the call. -/
def mkdirRun (fs : GoogleDriveFileSystem) (path : List Char) :
    Bool × GoogleDriveFileSystem :=
  let r := create_directory fs.service path
  (r.1, { fs with service := applyCalls fs.service r.2 })

/-- Method-level `rename_file`: result plus the state after the call. -/
def renameRun (fs : GoogleDriveFileSystem) (old_path new_path : List Char) :
    Bool × GoogleDriveFileSystem :=
  let r := rename_file fs.service old_path new_path
  (r.1, { fs with service := applyCalls fs.service r.2 })

/-- One adapter call, for reasoning about arbitrary call sequences. -/
inductive FsOp where
  | resolveOp (path : List Char)
  | statOp (path : List Char) (now : Nat)
  | listOp (path : List Char)
  | readOp (path : List Char)
  | writeOp (path : List Char) (content : List Nat)
  | deleteOp (path : List Char)
  | mkdirOp (path : List Char)
  | renameOp (old_path new_path : List Char)
deriving DecidableEq, Repr

/-- The object-and-remote state after one adapter call (read-only calls
leave it unchanged). -/
def applyOp (fs : GoogleDriveFileSystem) : FsOp → GoogleDriveFileSystem
  | .resolveOp _ => fs
  | .statOp _ _ => fs
  | .listOp _ => fs
  | .readOp _ => fs
  | .writeOp p c => (writeRun fs p c).2
  | .deleteOp p => (deleteRun fs p).2
  | .mkdirOp p => (mkdirRun fs p).2
  | .renameOp o n => (renameRun fs o n).2

def runOps (fs : GoogleDriveFileSystem) (ops : List FsOp) :
    GoogleDriveFileSystem :=
  ops.foldl applyOp fs

/-! ## Configuration (`src/utils/config.py`) -/

/-- The configuration fields `Config.validate` reads.  `ftp_port` is an
arbitrary integer (`int(os.getenv(...))`). -/
structure Config where
  credentials_file : List Char
  ftp_port : Int
  ftp_username : List Char
  ftp_password : List Char
deriving DecidableEq, Repr

/-- Source `config.py` lines 57-70: `Config.validate`.  `pathExists` stands
for `os.path.exists`. -/
def Config.validate (pathExists : List Char → Bool) (cfg : Config) :
    List (List Char) :=
  (if !pathExists cfg.credentials_file then
    ["Credentials file '".data ++ cfg.credentials_file ++ "' not found".data]
   else []) ++
  (if !(1 ≤ cfg.ftp_port && cfg.ftp_port ≤ 65535) then
    ["Invalid FTP port".data]
   else []) ++
  (if cfg.ftp_username = [] || cfg.ftp_password = [] then
    ["FTP username and password must be set".data]
   else [])

/-! ## Spec-side definitions

These follow the wording of the specification and are compared with the
definitions embedded from the source. -/

/-- Spec-side per-character escaping: a backslash becomes a doubled
backslash, a single quote becomes a backslash-quote pair. -/
def escChar (c : Char) : List Char :=
  if c = '\\' then ['\\', '\\']
  else if c = '\'' then ['\\', '\''] else [c]

/-- Spec 4.1: the name-scoped child lookup
`name == segment AND parent == currentId AND not trashed`. -/
def childLookup (store : Store) (nm pid : List Char) : List FileObj :=
  store.filter (fun f => f.name = nm && f.parents.contains pid && !f.trashed)

/-- Spec 4.1 segment walk: for each segment issue a child lookup; zero
results is NotFound; otherwise the first result's id becomes the parent for
the next segment.  Instrumented with the `(name, parentId)` lookups issued. -/
def specResolve (store : Store) : List (List Char) → List Char →
    Option FileObj × List (List Char × List Char)
  | [], _ => (none, [])
  | nm :: rest, pid =>
    match childLookup store nm pid with
    | [] => (none, [(nm, pid)])
    | f :: _ =>
      match rest with
      | [] => (some f, [(nm, pid)])
      | r :: rs =>
        let (res, t) := specResolve store (r :: rs) f.id
        (res, (nm, pid) :: t)

/-- A string free of the two characters meaningful to the query language.
Opaque Drive ids (including `root`) are of this shape. -/
def cleanId (s : List Char) : Bool :=
  s.all (fun c => !(c = '\'') && !(c = '\\'))

/-- Every object id in the store is clean. -/
def cleanStore (store : Store) : Bool :=
  store.all (fun f => cleanId f.id)

/-- Spec 6: the configuration is invalid when the credential file is
missing, the port is out of range, or the username or password is empty. -/
def Config.invalidSpec (pathExists : List Char → Bool) (cfg : Config) : Prop :=
  pathExists cfg.credentials_file = false ∨
  ¬(1 ≤ cfg.ftp_port ∧ cfg.ftp_port ≤ 65535) ∨
  cfg.ftp_username = [] ∨ cfg.ftp_password = []

/-! ## Concrete fixtures for witnesses and counterexamples -/

/-- A folder `a` directly under the root. -/
def objA : FileObj :=
  { id := "a1".data, name := "a".data, mimeType := folderMime,
    size := none, modifiedTime := none, createdTime := some 20,
    parents := ["root".data], trashed := false, content := [] }

/-- A folder `b` directly under the root. -/
def objB : FileObj :=
  { id := "b1".data, name := "b".data, mimeType := folderMime,
    size := none, modifiedTime := none, createdTime := none,
    parents := ["root".data], trashed := false, content := [] }

/-- A plain file `x` inside folder `a`. -/
def objX : FileObj :=
  { id := "x1".data, name := "x".data, mimeType := "text/plain".data,
    size := some 1, modifiedTime := some 50, createdTime := some 20,
    parents := ["a1".data], trashed := false, content := [7] }

def store1 : Store := [objA, objB, objX]

/-- An adapter object over `store1` whose `_cache` dict happens to hold an
entry for the full path `/a/x`. -/
def fsC : GoogleDriveFileSystem :=
  { service := store1, cache := [("/a/x".data, objX)], cacheTimeout := 60 }

/-! ## Helper lemmas: escaping and the query round trip -/

theorem replaceChar_append (t : Char) (r x y : List Char) :
    replaceChar t r (x ++ y) = replaceChar t r x ++ replaceChar t r y := by
  induction x with
  | nil => simp [replaceChar]
  | cons c cs ih => simp [replaceChar, ih]

theorem scanQuoted_cons (c : Char) (rest : List Char) :
    scanQuoted (c :: rest)
      = if c = '\'' then some ([], rest)
        else if c = '\\' then
          match rest with
          | [] => none
          | d :: rest' =>
            match scanQuoted rest' with
            | none => none
            | some (s, r) => some (d :: s, r)
        else
          match scanQuoted rest with
          | none => none
          | some (s, r) => some (c :: s, r) := by
  rw [scanQuoted.eq_def]

theorem escChar_backslash : escChar '\\' = ['\\', '\\'] := by decide

theorem escChar_quote : escChar '\'' = ['\\', '\''] := by decide

theorem escape_eq_flatMap (s : List Char) :
    escape_query_value s = s.flatMap escChar := by
  induction s with
  | nil => simp [escape_query_value, replaceChar]
  | cons c cs ih =>
    simp only [escape_query_value, replaceChar, replaceChar_append,
      List.flatMap_cons]
    simp only [escape_query_value] at ih
    rw [ih]
    by_cases hb : c = '\\'
    · subst hb; simp [escChar, replaceChar]
    · by_cases hq : c = '\''
      · subst hq; simp [escChar, replaceChar]
      · simp [escChar, replaceChar, hb, hq]

theorem stripPfx_append (l s : List Char) : stripPfx l (l ++ s) = some s := by
  induction l with
  | nil => simp [stripPfx]
  | cons c cs ih => simp [stripPfx, ih]

theorem scanQuoted_flatMap_escape (s rest : List Char) :
    scanQuoted (s.flatMap escChar ++ '\'' :: rest) = some (s, rest) := by
  induction s with
  | nil => simp [scanQuoted_cons]
  | cons c cs ih =>
    by_cases hb : c = '\\'
    · subst hb
      simp only [List.flatMap_cons, escChar_backslash, List.cons_append,
        List.append_assoc, List.nil_append]
      rw [scanQuoted_cons]
      simp [ih]
    · by_cases hq : c = '\''
      · subst hq
        simp only [List.flatMap_cons, escChar_quote, List.cons_append,
          List.append_assoc, List.nil_append]
        rw [scanQuoted_cons]
        simp [ih]
      · have he : escChar c = [c] := by simp [escChar, hb, hq]
        simp only [List.flatMap_cons, he, List.singleton_append,
          List.cons_append]
        rw [scanQuoted_cons, if_neg hq, if_neg hb, List.nil_append, ih]

theorem scanQuoted_clean (pid rest : List Char) (h : cleanId pid = true) :
    scanQuoted (pid ++ '\'' :: rest) = some (pid, rest) := by
  induction pid with
  | nil => simp [scanQuoted_cons]
  | cons c cs ih =>
    rw [cleanId, List.all_cons, Bool.and_eq_true] at h
    obtain ⟨hc, hcs⟩ := h
    rw [Bool.and_eq_true, Bool.not_eq_true', Bool.not_eq_true',
      decide_eq_false_iff_not, decide_eq_false_iff_not] at hc
    obtain ⟨hq, hb⟩ := hc
    rw [List.cons_append, scanQuoted_cons, if_neg hq, if_neg hb, ih hcs]

theorem quote_and_quote_data :
    "' and '".data = '\'' :: " and '".data := by decide

theorem quote_in_parents_data :
    "' in parents and trashed=false".data
      = '\'' :: " in parents and trashed=false".data := by decide

theorem parseQuery_buildQuery (part pid : List Char) (h : cleanId pid = true) :
    parseQuery (buildQuery (escape_query_value part) pid) = some (part, pid) := by
  have hb : buildQuery (escape_query_value part) pid
      = "name='".data ++ (part.flatMap escChar ++ '\'' ::
        (" and '".data ++ (pid ++ '\'' ::
          " in parents and trashed=false".data))) := by
    rw [buildQuery, escape_eq_flatMap, quote_and_quote_data,
      quote_in_parents_data]
    simp
  rw [hb, parseQuery, stripPfx_append]
  simp only [Option.some_bind]
  rw [scanQuoted_flatMap_escape]
  simp only [Option.some_bind]
  rw [stripPfx_append]
  simp only [Option.some_bind]
  rw [scanQuoted_clean _ _ h]
  simp

theorem filesList_buildQuery (store : Store) (part pid : List Char)
    (h : cleanId pid = true) :
    filesList store (buildQuery (escape_query_value part) pid)
      = childLookup store part pid := by
  rw [filesList, parseQuery_buildQuery part pid h, childLookup]

/-! ## Helper lemmas: the segment walk -/

theorem resolveGo_nil (store : Store) (pid : List Char) :
    resolveGo store [] pid = (none, []) := rfl

theorem resolveGo_cons (store : Store) (nm : List Char)
    (rest : List (List Char)) (pid : List Char) :
    resolveGo store (nm :: rest) pid
      = (match filesList store (buildQuery (escape_query_value nm) pid) with
         | [] => (none, [buildQuery (escape_query_value nm) pid])
         | f :: _ =>
           match rest with
           | [] => (some f, [buildQuery (escape_query_value nm) pid])
           | r :: rs =>
             ((resolveGo store (r :: rs) f.id).1,
              buildQuery (escape_query_value nm) pid
                :: (resolveGo store (r :: rs) f.id).2)) := by
  rw [resolveGo.eq_def]

theorem specResolve_nil (store : Store) (pid : List Char) :
    specResolve store [] pid = (none, []) := rfl

theorem specResolve_cons (store : Store) (nm : List Char)
    (rest : List (List Char)) (pid : List Char) :
    specResolve store (nm :: rest) pid
      = (match childLookup store nm pid with
         | [] => (none, [(nm, pid)])
         | f :: _ =>
           match rest with
           | [] => (some f, [(nm, pid)])
           | r :: rs =>
             ((specResolve store (r :: rs) f.id).1,
              (nm, pid) :: (specResolve store (r :: rs) f.id).2)) := by
  rw [specResolve.eq_def]

theorem resolveGo_eq_spec (store : Store) (hs : cleanStore store = true) :
    ∀ (segs : List (List Char)) (pid : List Char), cleanId pid = true →
    resolveGo store segs pid
      = ((specResolve store segs pid).1,
         (specResolve store segs pid).2.map
           (fun np => buildQuery (escape_query_value np.1) np.2)) := by
  intro segs
  induction segs with
  | nil => intro pid _; rw [resolveGo_nil, specResolve_nil]; rfl
  | cons nm rest ih =>
    intro pid hpid
    rw [resolveGo_cons, specResolve_cons,
      filesList_buildQuery store nm pid hpid]
    cases hcl : childLookup store nm pid with
    | nil => simp
    | cons f l =>
      have hf : f ∈ store := by
        have hm : f ∈ childLookup store nm pid := by
          rw [hcl]; exact List.mem_cons_self f l
        exact List.mem_of_mem_filter hm
      have hfid : cleanId f.id = true := by
        have := List.all_eq_true.mp hs f hf
        simpa using this
      cases rest with
      | nil => simp
      | cons r rs =>
        have hrec := ih f.id hfid
        simp only [hrec]
        simp

theorem splitSlash_ne_nil (s : List Char) : splitSlash s ≠ [] := by
  cases s with
  | nil => simp [splitSlash]
  | cons c cs =>
    rw [splitSlash]
    by_cases h : c = '/'
    · simp [h]
    · simp only [if_neg h]
      cases hs : splitSlash cs <;> simp

theorem pathParts_ne_nil (path : List Char) : pathParts path ≠ [] :=
  splitSlash_ne_nil _

theorem resolveGo_trace_ne_nil (store : Store) (segs : List (List Char))
    (pid : List Char) (h : segs ≠ []) : (resolveGo store segs pid).2 ≠ [] := by
  cases segs with
  | nil => exact absurd rfl h
  | cons nm rest =>
    rw [resolveGo_cons]
    cases filesList store (buildQuery (escape_query_value nm) pid) with
    | nil => simp
    | cons f l =>
      cases rest with
      | nil => simp
      | cons r rs => simp

/-! ## Cache-preservation helpers -/

theorem applyOp_cache (fs : GoogleDriveFileSystem) (op : FsOp) :
    (applyOp fs op).cache = fs.cache := by
  cases op <;> rfl

theorem runOps_cache (fs : GoogleDriveFileSystem) (ops : List FsOp) :
    (runOps fs ops).cache = fs.cache := by
  induction ops generalizing fs with
  | nil => rfl
  | cons op rest ih =>
    show (runOps (applyOp fs op) rest).cache = fs.cache
    rw [ih, applyOp_cache]

/-! ## The claims -/

/-- C5: for every non-root path, resolution splits the path into segments
and walks them left to right from the root id, issuing for each segment a
name-scoped, parent-scoped, not-trashed child lookup; zero results yield
NotFound, and otherwise the first result is taken (duplicates resolved
permissively, never an error) and its id becomes the next parent. -/
theorem C5_resolution_walk (store : Store) (path : List Char)
    (hs : cleanStore store = true) (hp : ¬(path = ['/'] ∨ path = [])) :
    get_file_by_path store path
      = ((specResolve store (pathParts path) "root".data).1,
         (specResolve store (pathParts path) "root".data).2.map
           (fun np => buildQuery (escape_query_value np.1) np.2)) := by
  rw [get_file_by_path, if_neg hp]
  exact resolveGo_eq_spec store hs (pathParts path) "root".data (by decide)

theorem C5_witness :
    cleanStore store1 = true ∧ ¬("/a/x".data = ['/'] ∨ "/a/x".data = []) ∧
    get_file_by_path store1 "/a/x".data
      = ((specResolve store1 (pathParts "/a/x".data) "root".data).1,
         (specResolve store1 (pathParts "/a/x".data) "root".data).2.map
           (fun np => buildQuery (escape_query_value np.1) np.2)) :=
  ⟨by decide, by decide,
   C5_resolution_walk store1 "/a/x".data (by decide) (by decide)⟩

/-- C6: segment names are escaped before being embedded in a lookup query
(backslashes doubled first, then quotes prefixed with a backslash, which
amounts to per-character escaping), and consequently the remote parses the
query back to exactly the intended segment name and parent id: no segment
name can alter the structure of the query string. -/
theorem C6_escaping_no_injection (part pid : List Char)
    (h : cleanId pid = true) :
    escape_query_value part = part.flatMap escChar ∧
    parseQuery (buildQuery (escape_query_value part) pid)
      = some (part, pid) :=
  ⟨escape_eq_flatMap part, parseQuery_buildQuery part pid h⟩

theorem C6_witness :
    cleanId "root".data = true ∧
    (escape_query_value "a'b\\".data = "a'b\\".data.flatMap escChar ∧
     parseQuery (buildQuery (escape_query_value "a'b\\".data) "root".data)
       = some ("a'b\\".data, "root".data)) :=
  ⟨by decide, C6_escaping_no_injection "a'b\\".data "root".data (by decide)⟩

/-- C7: for every path that resolves, the reported mtime is the object's
modification timestamp when present, else its creation timestamp, else the
current time; and the reported size is 0 for directories. -/
theorem C7_stats_mtime_size (store : Store) (path : List Char) (now : Nat)
    (fi : FileObj) (h : resolve store path = some fi) :
    ∃ st, get_file_stats store path now = some st ∧
      st.mtime = (match fi.modifiedTime with
        | some t => t
        | none => match fi.createdTime with
          | some t => t
          | none => now) ∧
      (st.isdir = true → st.size = 0) ∧
      st.isdir = (fi.mimeType = folderMime : Bool) := by
  have hs : get_file_stats store path now = some
      { size := if fi.mimeType = folderMime then 0 else fi.size.getD 0,
        mtime := match fi.modifiedTime with
          | some t => t
          | none => match fi.createdTime with
            | some t => t
            | none => now,
        isdir := fi.mimeType = folderMime,
        name := fi.name, id := fi.id } := by
    rw [get_file_stats, h]
  refine ⟨_, hs, rfl, ?_, rfl⟩
  intro hd
  by_cases hm : fi.mimeType = folderMime
  · simp [hm]
  · simp [hm] at hd

theorem C7_witness :
    resolve store1 "/a/x".data = some objX ∧
    (∃ st, get_file_stats store1 "/a/x".data 100 = some st ∧
      st.mtime = (match objX.modifiedTime with
        | some t => t
        | none => match objX.createdTime with
          | some t => t
          | none => 100) ∧
      (st.isdir = true → st.size = 0) ∧
      st.isdir = (objX.mimeType = folderMime : Bool)) :=
  ⟨by decide, C7_stats_mtime_size store1 "/a/x".data 100 objX (by decide)⟩

/-- C8: `Config.validate` returns a non-empty error list exactly when the
configuration is invalid: missing credential file, port outside 1..65535,
or empty username or password. -/
theorem C8_validate_iff_invalid (pathExists : List Char → Bool)
    (cfg : Config) :
    Config.validate pathExists cfg ≠ [] ↔ Config.invalidSpec pathExists cfg := by
  rw [Config.validate, Config.invalidSpec]
  by_cases h1 : pathExists cfg.credentials_file
  · by_cases h2 : 1 ≤ cfg.ftp_port ∧ cfg.ftp_port ≤ 65535
    · by_cases h3 : cfg.ftp_username = [] ∨ cfg.ftp_password = []
      · simp only [h1, h2.1, h2.2]
        simp [h3]
      · push_neg at h3
        simp only [h1, h2.1, h2.2]
        simp [h3.1, h3.2, h2]
    · simp [h1, h2]
  · have h1f : pathExists cfg.credentials_file = false := by
      simpa using h1
    simp [h1f]

/-- C3: `write_file` resolves the parent directory first and fails without
any remote mutation when it is missing; otherwise it resolves the target
path and issues an update of the existing object's content when the target
resolves, or a create of a new object under the resolved parent when it
does not. -/
theorem C3_write_upsert (store : Store) (path : List Char)
    (content : List Nat) :
    (resolve store (parentPathOf path) = none →
       write_file store path content = (false, [])) ∧
    (∀ p e, resolve store (parentPathOf path) = some p →
       resolve store path = some e →
       write_file store path content
         = (true, [MutCall.updateContent e.id content])) ∧
    (∀ p, resolve store (parentPathOf path) = some p →
       resolve store path = none →
       write_file store path content
         = (true, [MutCall.create (lastPart (pathParts path)) [p.id]
             false content])) := by
  refine ⟨fun h => ?_, fun p e hp he => ?_, fun p hp he => ?_⟩
  · simp [write_file, h]
  · simp [write_file, hp, he]
  · simp [write_file, hp, he]

theorem C3_witness :
    resolve store1 (parentPathOf "/e/x".data) = none ∧
    write_file store1 "/e/x".data [9] = (false, []) ∧
    resolve store1 (parentPathOf "/a/x".data) = some objA ∧
    resolve store1 "/a/x".data = some objX ∧
    write_file store1 "/a/x".data [9]
      = (true, [MutCall.updateContent objX.id [9]]) ∧
    resolve store1 "/a/g".data = none ∧
    write_file store1 "/a/g".data [9]
      = (true, [MutCall.create (lastPart (pathParts "/a/g".data)) [objA.id]
          false [9]]) :=
  ⟨by decide, (C3_write_upsert store1 "/e/x".data [9]).1 (by decide),
   by decide, by decide,
   (C3_write_upsert store1 "/a/x".data [9]).2.1 objA objX (by decide)
     (by decide),
   by decide,
   (C3_write_upsert store1 "/a/g".data [9]).2.2 objA (by decide) (by decide)⟩

/-- C4: when the source path resolves, `rename_file` applies only the leaf
name of the new path to the object found at the old path: in the resulting
store that object keeps its id, parent links and all other metadata, and
every other object is untouched, even when the new path's directory differs
from the old path's. -/
theorem C4_rename_in_place (fs : GoogleDriveFileSystem)
    (old_path new_path : List Char) (fi : FileObj)
    (h : resolve fs.service old_path = some fi) :
    renameRun fs old_path new_path
      = (true, { fs with service := fs.service.map (fun f =>
          if f.id = fi.id
          then { f with name := lastPart (pathParts new_path) } else f) }) ∧
    (renameRun fs old_path new_path).2.service.map
        (fun f => (f.id, f.parents, f.mimeType, f.size, f.content, f.trashed))
      = fs.service.map
        (fun f => (f.id, f.parents, f.mimeType, f.size, f.content,
          f.trashed)) := by
  have h1 : rename_file fs.service old_path new_path
      = (true, [.updateName fi.id (lastPart (pathParts new_path))]) := by
    simp [rename_file, h]
  have h2 : renameRun fs old_path new_path
      = (true, { fs with service := fs.service.map (fun f =>
          if f.id = fi.id
          then { f with name := lastPart (pathParts new_path) } else f) }) := by
    simp [renameRun, h1, applyCalls, applyMut]
  refine ⟨h2, ?_⟩
  rw [h2]
  rw [List.map_map]
  apply List.map_congr_left
  intro f _
  by_cases hid : f.id = fi.id
  · simp [hid]
  · simp [hid]

theorem C4_witness :
    resolve fsC.service "/a/x".data = some objX ∧
    (renameRun fsC "/a/x".data "/b/y".data
      = (true, { fsC with service := fsC.service.map (fun f =>
          if f.id = objX.id
          then { f with name := lastPart (pathParts "/b/y".data) } else f) }) ∧
    (renameRun fsC "/a/x".data "/b/y".data).2.service.map
        (fun f => (f.id, f.parents, f.mimeType, f.size, f.content, f.trashed))
      = fsC.service.map
        (fun f => (f.id, f.parents, f.mimeType, f.size, f.content,
          f.trashed))) :=
  ⟨by decide,
   C4_rename_in_place fsC "/a/x".data "/b/y".data objX (by decide)⟩

/-- C10: when the resolution a mutating operation requires fails (the
source path for delete and rename, the parent path for write and mkdir),
the operation returns False, issues no remote mutation call, and leaves the
whole object-and-remote state unchanged. -/
theorem C10_notfound_no_mutation (fs : GoogleDriveFileSystem)
    (pDel old_path new_path pW pMk : List Char) (content : List Nat) :
    (resolve fs.service pDel = none →
       delete_file fs.service pDel = (false, []) ∧
       deleteRun fs pDel = (false, fs)) ∧
    (resolve fs.service old_path = none →
       rename_file fs.service old_path new_path = (false, []) ∧
       renameRun fs old_path new_path = (false, fs)) ∧
    (resolve fs.service (parentPathOf pW) = none →
       write_file fs.service pW content = (false, []) ∧
       writeRun fs pW content = (false, fs)) ∧
    (resolve fs.service (parentPathOf pMk) = none →
       create_directory fs.service pMk = (false, []) ∧
       mkdirRun fs pMk = (false, fs)) := by
  refine ⟨fun h => ?_, fun h => ?_, fun h => ?_, fun h => ?_⟩
  · have hc : delete_file fs.service pDel = (false, []) := by
      simp [delete_file, h]
    exact ⟨hc, by simp [deleteRun, hc, applyCalls]⟩
  · have hc : rename_file fs.service old_path new_path = (false, []) := by
      simp [rename_file, h]
    exact ⟨hc, by simp [renameRun, hc, applyCalls]⟩
  · have hc : write_file fs.service pW content = (false, []) := by
      simp [write_file, h]
    exact ⟨hc, by simp [writeRun, hc, applyCalls]⟩
  · have hc : create_directory fs.service pMk = (false, []) := by
      simp [create_directory, h]
    exact ⟨hc, by simp [mkdirRun, hc, applyCalls]⟩

theorem C10_witness :
    resolve fsC.service "/nope".data = none ∧
    resolve fsC.service (parentPathOf "/e/x".data) = none ∧
    (delete_file fsC.service "/nope".data = (false, []) ∧
      deleteRun fsC "/nope".data = (false, fsC)) ∧
    (rename_file fsC.service "/nope".data "/b/y".data = (false, []) ∧
      renameRun fsC "/nope".data "/b/y".data = (false, fsC)) ∧
    (write_file fsC.service "/e/x".data [9] = (false, []) ∧
      writeRun fsC "/e/x".data [9] = (false, fsC)) ∧
    (create_directory fsC.service "/e/x".data = (false, []) ∧
      mkdirRun fsC "/e/x".data = (false, fsC)) :=
  ⟨by decide, by decide,
   (C10_notfound_no_mutation fsC "/nope".data "/nope".data "/b/y".data
     "/e/x".data "/e/x".data [9]).1 (by decide),
   (C10_notfound_no_mutation fsC "/nope".data "/nope".data "/b/y".data
     "/e/x".data "/e/x".data [9]).2.1 (by decide),
   (C10_notfound_no_mutation fsC "/nope".data "/nope".data "/b/y".data
     "/e/x".data "/e/x".data [9]).2.2.1 (by decide),
   (C10_notfound_no_mutation fsC "/nope".data "/nope".data "/b/y".data
     "/e/x".data "/e/x".data [9]).2.2.2 (by decide)⟩

/-- C9: the `_cache` dict is initialized empty and is an invariant of every
operation: no operation reads it (every result and resulting remote store
is independent of the cache contents) or writes it (every operation leaves
it unchanged), so along any sequence of operations from initialization it
stays empty. -/
theorem C9_cache_is_inert :
    (∀ s : Store, (GoogleDriveFileSystem.init s).cache = []) ∧
    (∀ (service : Store) (c c' : List (List Char × FileObj)) (t t' : Nat)
       (path old_path new_path : List Char) (now : Nat) (content : List Nat),
       fsResolve ⟨service, c, t⟩ path = fsResolve ⟨service, c', t'⟩ path ∧
       fsStats ⟨service, c, t⟩ path now = fsStats ⟨service, c', t'⟩ path now ∧
       fsList ⟨service, c, t⟩ path = fsList ⟨service, c', t'⟩ path ∧
       fsRead ⟨service, c, t⟩ path = fsRead ⟨service, c', t'⟩ path ∧
       (writeRun ⟨service, c, t⟩ path content).1
         = (writeRun ⟨service, c', t'⟩ path content).1 ∧
       (writeRun ⟨service, c, t⟩ path content).2.service
         = (writeRun ⟨service, c', t'⟩ path content).2.service ∧
       (deleteRun ⟨service, c, t⟩ path).1
         = (deleteRun ⟨service, c', t'⟩ path).1 ∧
       (deleteRun ⟨service, c, t⟩ path).2.service
         = (deleteRun ⟨service, c', t'⟩ path).2.service ∧
       (mkdirRun ⟨service, c, t⟩ path).1
         = (mkdirRun ⟨service, c', t'⟩ path).1 ∧
       (mkdirRun ⟨service, c, t⟩ path).2.service
         = (mkdirRun ⟨service, c', t'⟩ path).2.service ∧
       (renameRun ⟨service, c, t⟩ old_path new_path).1
         = (renameRun ⟨service, c', t'⟩ old_path new_path).1 ∧
       (renameRun ⟨service, c, t⟩ old_path new_path).2.service
         = (renameRun ⟨service, c', t'⟩ old_path new_path).2.service) ∧
    (∀ (fs : GoogleDriveFileSystem) (op : FsOp),
       (applyOp fs op).cache = fs.cache) ∧
    (∀ (s : Store) (ops : List FsOp),
       (runOps (GoogleDriveFileSystem.init s) ops).cache = []) := by
  refine ⟨fun s => rfl, ?_, applyOp_cache, fun s ops => ?_⟩
  · intro service c c' t t' path old_path new_path now content
    exact ⟨rfl, rfl, rfl, rfl, rfl, rfl, rfl, rfl, rfl, rfl, rfl, rfl⟩
  · rw [runOps_cache]; rfl

/-- C1, as stated by the spec, is false on the code: the claim that a cache
hit for the full path short-circuits resolution so that no remote call is
made fails on the concrete object `fsC`, whose cache holds an entry for
`/a/x` and whose resolution of `/a/x` nevertheless issues remote queries. -/
theorem C1_counterexample :
    ¬ (∀ (fs : GoogleDriveFileSystem) (path : List Char) (fi : FileObj),
        cacheLookup fs path = some fi → (fsResolve fs path).2 = []) := by
  intro h
  have h2 := h fsC "/a/x".data objX (by decide)
  have h3 : (fsResolve fsC "/a/x".data).2 ≠ [] := by decide
  exact h3 h2

/-- C1 (amended): resolution never consults the cache — its result and its
remote calls are independent of the cache contents — and for every non-root
path it performs the remote segment walk, issuing at least one remote
query, even when the cache holds an entry for the full path. -/
theorem C1_resolution_ignores_cache :
    (∀ (service : Store) (c c' : List (List Char × FileObj)) (t t' : Nat)
       (path : List Char),
       fsResolve ⟨service, c, t⟩ path = fsResolve ⟨service, c', t'⟩ path) ∧
    (∀ (fs : GoogleDriveFileSystem) (path : List Char),
       ¬(path = ['/'] ∨ path = []) → (fsResolve fs path).2 ≠ []) := by
  refine ⟨fun service c c' t t' path => rfl, fun fs path hp => ?_⟩
  show (get_file_by_path fs.service path).2 ≠ []
  rw [get_file_by_path, if_neg hp]
  exact resolveGo_trace_ne_nil fs.service (pathParts path) "root".data
    (pathParts_ne_nil path)

theorem C1_witness :
    ¬("/a/x".data = ['/'] ∨ "/a/x".data = []) ∧
    (fsResolve fsC "/a/x".data).2 ≠ [] :=
  ⟨by decide, C1_resolution_ignores_cache.2 fsC "/a/x".data (by decide)⟩

/-- C2, as stated by the spec, is false on the code: no mutating operation
invalidates any cache entry.  On the concrete object `fsC`, deleting
`/a/x` succeeds yet the cache entry for `/a/x` survives the call. -/
theorem C2_counterexample :
    ¬ (∀ (fs : GoogleDriveFileSystem) (path old_path new_path : List Char)
        (content : List Nat),
        ((writeRun fs path content).1 = true →
           cacheLookup (writeRun fs path content).2 path = none) ∧
        ((deleteRun fs path).1 = true →
           cacheLookup (deleteRun fs path).2 path = none) ∧
        ((renameRun fs old_path new_path).1 = true →
           cacheLookup (renameRun fs old_path new_path).2 old_path = none) ∧
        ((mkdirRun fs path).1 = true →
           cacheLookup (mkdirRun fs path).2 path = none)) := by
  intro h
  have h2 := (h fsC "/a/x".data "/a/x".data "/b/y".data [9]).2.1 (by decide)
  have h3 : cacheLookup (deleteRun fsC "/a/x".data).2 "/a/x".data
      = some objX := by decide
  rw [h2] at h3
  exact Option.noConfusion h3

/-- C2 (amended): no mutating operation touches the cache at all — each one
returns with the object's cache exactly as it was before the call (and
since the cache is never populated, it is empty in every state reachable
from initialization, so no entry for any path ever exists to survive). -/
theorem C2_mutations_leave_cache_unchanged (fs : GoogleDriveFileSystem)
    (path old_path new_path : List Char) (content : List Nat) :
    (writeRun fs path content).2.cache = fs.cache ∧
    (deleteRun fs path).2.cache = fs.cache ∧
    (renameRun fs old_path new_path).2.cache = fs.cache ∧
    (mkdirRun fs path).2.cache = fs.cache :=
  ⟨rfl, rfl, rfl, rfl⟩

end GDrive
